import Mathlib

/-!
Verification development for the graph-analytics routing agent
(`src/ai/agent/graph_analytics_agent.py`).

The Python module is shallowly embedded below.  Python dictionaries are
modelled as insertion-ordered association lists over string keys
(`PyDict`); dynamic Python values are modelled by the inductive type
`Val`.  Pure functions of the module become Lean functions; the two
external collaborators of `GraphAnalyticsAgent.run` (the LLM tool
selector and the MCP execution backend) are passed in as explicit
parameters, and Python exceptions become `Except` errors.
-/

namespace GraphRag

/-- Dynamic Python value (the `Any` type of the module).  Floats are
decimal literals stored as mantissa and decimal-shift, e.g. `0.0001`
is `vNum 1 4`; the module never does float arithmetic, it only stores
and prints these values. -/
inductive Val where
  | vStr : String → Val
  | vInt : Int → Val
  | vNum : Int → Nat → Val
  | vBool : Bool → Val
  | vNull : Val
  | vList : List Val → Val
  | vObj : List (String × Val) → Val

/-- Insertion-ordered dictionary with string keys, the model of a
Python `dict` value. -/
abbrev PyDict (α : Type) := List (String × α)

/-- Model of Python dict values `Dict[str, Any]`. -/
abbrev Dict := PyDict Val

/-- Lookup of a key (Python `d[k]` / `d.get(k)`): value of the first
entry with the key.  Dictionaries built by the operations below keep
keys unique, so the first entry is the only one. -/
def dlookup {α : Type} : PyDict α → String → Option α
  | [], _ => none
  | (k, v) :: rest, key => if k = key then some v else dlookup rest key

/-- Python `k in d`. -/
def dcontains {α : Type} (d : PyDict α) (k : String) : Bool :=
  (dlookup d k).isSome

/-- Python `d[k] = v`: replace the value in place when the key exists
(keeping its position), otherwise append the new entry. -/
def dinsert {α : Type} (d : PyDict α) (p : String × α) : PyDict α :=
  if dcontains d p.1 then d.map (fun q => if q.1 = p.1 then p else q) else d ++ [p]

/-- Python `d.update(other)`: insert every entry of `other` in order. -/
def dupdate {α : Type} (d other : PyDict α) : PyDict α :=
  other.foldl dinsert d

/-- Python `d.setdefault(k, v)`. -/
def dsetdefault {α : Type} (d : PyDict α) (k : String) (v : α) : PyDict α :=
  if dcontains d k then d else d ++ [(k, v)]

/-- Value of the last entry of an association list carrying the key
(used to describe `dupdate`, where later entries win). -/
def lastLookup {α : Type} (l : PyDict α) (k : String) : Option α :=
  dlookup l.reverse k

/-- A single apostrophe character, used when building the agent error
and summary messages. -/
def squote : String := (Char.ofNat 39).toString

/-! ### Character and string helpers (ASCII fragment of the Python
string methods used by the module; every question, keyword and schema
string the module manipulates is ASCII). -/

/-- ASCII uppercase test, the `[A-Z]` character class. -/
def isUpperAscii (c : Char) : Bool := 'A' ≤ c && c ≤ 'Z'

/-- ASCII model of Python `str.lower()` on one character. -/
def pyLowerChar (c : Char) : Char :=
  if isUpperAscii c then Char.ofNat (c.toNat + 32) else c

/-- ASCII model of Python `str.lower()`. -/
def pyLower (s : List Char) : List Char := s.map pyLowerChar

/-- Python whitespace (the characters `str.split()` and `str.strip()`
split and strip on, ASCII fragment). -/
def isPyWs (c : Char) : Bool :=
  c = ' ' || c = '\t' || c = '\n' || c = '\x0d' || c = '\x0b' || c = '\x0c'

/-- Fuel-driven worker for `splitWs` (the fuel only makes the
recursion structural; `splitWs` supplies the input length, which the
recursion never exhausts because every step both spends one unit of
fuel and shortens the list by at least one character). -/
def splitWsF : Nat → List Char → List (List Char)
  | _, [] => []
  | 0, _ :: _ => []
  | fuel + 1, c :: rest =>
    if isPyWs c then splitWsF fuel rest
    else (c :: rest.takeWhile (fun d => !isPyWs d)) ::
      splitWsF fuel (rest.dropWhile (fun d => !isPyWs d))

/-- Python `str.split()` with no argument: split on runs of whitespace,
discarding empty pieces. -/
def splitWs (l : List Char) : List (List Char) := splitWsF l.length l

/-- Python substring test `needle in hay` on strings. -/
def subStr (needle : List Char) : List Char → Bool
  | [] => needle.isEmpty
  | c :: rest => needle.isPrefixOf (c :: rest) || subStr needle rest

/-- Python `s.strip(chars)`: drop characters of `chars` from both ends. -/
def pyStripChars (chars : List Char) (s : List Char) : List Char :=
  ((s.dropWhile (chars.contains ·)).reverse.dropWhile (chars.contains ·)).reverse

/-- Python `s.strip()` (default whitespace). -/
def pyStrip (s : List Char) : List Char :=
  ((s.dropWhile isPyWs).reverse.dropWhile isPyWs).reverse

/-- Python `sep.join(parts)` on strings. -/
def pyJoin (sep : String) (parts : List String) : String :=
  String.intercalate sep parts

/-- Python `s.split(sep)` for a single-character separator, keeping
empty pieces (used with `sep = newline`). -/
def splitOnChar (sep : Char) : List Char → List (List Char)
  | [] => [[]]
  | c :: rest =>
    if c = sep then [] :: splitOnChar sep rest
    else match splitOnChar sep rest with
      | [] => [[c]]
      | w :: ws => (c :: w) :: ws

/-! ### Geographic filter extraction
(`GraphAnalyticsAgent._extract_geo_filters`, lines 451-455). -/

/-- The character class `[A-Za-z0-9_ -]` of the geo-filter regex. -/
def isGeoChar (c : Char) : Bool :=
  ('A' ≤ c && c ≤ 'Z') || ('a' ≤ c && c ≤ 'z') || ('0' ≤ c && c ≤ '9') ||
    c = '_' || c = ' ' || c = '-'

/-- Fuel-driven worker for `findallGeo` (fuel only makes the scan
structural; every step spends one unit and shortens the list). -/
def findallGeoF : Nat → List Char → List (List Char)
  | _, [] => []
  | 0, _ :: _ => []
  | fuel + 1, l =>
    match l with
    | 'i' :: 'n' :: ' ' :: c :: rest =>
      if isUpperAscii c && !(rest.takeWhile isGeoChar).isEmpty then
        (c :: rest.takeWhile isGeoChar) :: findallGeoF fuel (rest.dropWhile isGeoChar)
      else
        findallGeoF fuel ('n' :: ' ' :: c :: rest)
    | _ :: rest => findallGeoF fuel rest
    | [] => []

/-- Model of `re.findall(r"in ([A-Z][A-Za-z0-9_ -]+)", question)`:
leftmost non-overlapping matches, scanning left to right; the `+` is
greedy and nothing follows it, so each match consumes the longest run
of class characters.  Returns the captured groups. -/
def findallGeo (l : List Char) : List (List Char) := findallGeoF l.length l

/-- The characters stripped from each regex match
(`name.strip(" ,.")`). -/
def stripSet : List Char := [' ', ',', '.']

/-- `GraphAnalyticsAgent._extract_geo_filters`: regex matches, each
stripped of leading and trailing spaces, commas and periods
(`name.strip(" ,.")`). -/
def extract_geo_filters (question : String) : List String :=
  (findallGeo question.data).map (fun m => String.mk (pyStripChars stripSet m))

/-! ### Value rendering (`str`, `repr` and `json.dumps` as used by the
summarizers).  The `repr` model renders strings between plain single
quotes; the module only ever renders benign identifier-like strings. -/

/-- Python truthiness of a value. -/
def pyTruthy : Val → Bool
  | .vStr s => !s.isEmpty
  | .vInt n => n != 0
  | .vNum m _ => m != 0
  | .vBool b => b
  | .vNull => false
  | .vList xs => !xs.isEmpty
  | .vObj fs => !fs.isEmpty

/-- Python `a or b` on values. -/
def pyOr (a b : Val) : Val := if pyTruthy a then a else b

/-- Python `d.get(k)` (default `None`). -/
def pyGet (d : Dict) (k : String) : Val := (dlookup d k).getD .vNull

/-- Python `d.get(k, dflt)`. -/
def pyGetD (d : Dict) (k : String) (dflt : Val) : Val := (dlookup d k).getD dflt

/-- Hexadecimal digit. -/
def hexDigit (n : Nat) : Char :=
  if n < 10 then Char.ofNat (48 + n) else Char.ofNat (87 + n)

/-- Render of a float literal `m * 10 ^ (-e)` the way Python prints it
(e.g. `0.0001`, `0.9`, `5.0`). -/
def renderFloat (m : Int) (e : Nat) : String :=
  let s := toString m.natAbs
  let digits := List.replicate (e + 1 - s.length) '0' ++ s.data
  let txt :=
    if e = 0 then String.mk digits ++ ".0"
    else String.mk (digits.take (digits.length - e) ++ ['.'] ++
      digits.drop (digits.length - e))
  if m < 0 then "-" ++ txt else txt

/-- JSON escape of one character (as `json.dumps` emits it with
`ensure_ascii=False`). -/
def jsonEscapeChar (c : Char) : String :=
  if c = '"' then "\\\""
  else if c = '\\' then "\\\\"
  else if c = '\n' then "\\n"
  else if c = '\t' then "\\t"
  else if c = '\x0d' then "\\r"
  else if c = '\x08' then "\\b"
  else if c = '\x0c' then "\\f"
  else if c.toNat < 32 then
    "\\u" ++ String.mk [hexDigit (c.toNat / 4096 % 16), hexDigit (c.toNat / 256 % 16),
      hexDigit (c.toNat / 16 % 16), hexDigit (c.toNat % 16)]
  else c.toString

/-- JSON escape of a string body. -/
def jsonEscape (s : String) : String :=
  String.join (s.data.map jsonEscapeChar)

/-- Model of `json.dumps(v, ensure_ascii=False)` (default separators). -/
def jsonVal : Val → String
  | .vStr s => "\"" ++ jsonEscape s ++ "\""
  | .vInt n => toString n
  | .vNum m e => renderFloat m e
  | .vBool b => if b then "true" else "false"
  | .vNull => "null"
  | .vList xs => "[" ++ pyJoin ", " (xs.attach.map (fun x => jsonVal x.1)) ++ "]"
  | .vObj fs => "\x7b" ++
      pyJoin ", " (fs.attach.map (fun f => "\"" ++ jsonEscape f.1.1 ++ "\": " ++ jsonVal f.1.2)) ++
      "\x7d"
decreasing_by
  · have := List.sizeOf_lt_of_mem x.2; simp at this ⊢; omega
  · obtain ⟨⟨a, b⟩, hf⟩ := f
    have := List.sizeOf_lt_of_mem hf
    simp at this ⊢
    omega

/-- Model of Python `repr(v)` for the values above. -/
def pyRepr : Val → String
  | .vStr s => squote ++ s ++ squote
  | .vInt n => toString n
  | .vNum m e => renderFloat m e
  | .vBool b => if b then "True" else "False"
  | .vNull => "None"
  | .vList xs => "[" ++ pyJoin ", " (xs.attach.map (fun x => pyRepr x.1)) ++ "]"
  | .vObj fs => "\x7b" ++
      pyJoin ", " (fs.attach.map (fun f => squote ++ f.1.1 ++ squote ++ ": " ++ pyRepr f.1.2)) ++
      "\x7d"
decreasing_by
  · have := List.sizeOf_lt_of_mem x.2; simp at this ⊢; omega
  · obtain ⟨⟨a, b⟩, hf⟩ := f
    have := List.sizeOf_lt_of_mem hf
    simp at this ⊢
    omega

/-- Model of Python `str(v)` (used by f-string interpolation). -/
def pyStr : Val → String
  | .vStr s => s
  | v => pyRepr v

/-! ### Dedicated result summarizers (`_summarize_rankings`,
`_summarize_leiden`, `_summarize_bridges`, `_summarize_text_result`,
lines 514-564).  `row.get(...)` on a row that is not a dict raises an
`AttributeError` in Python; that is the `Except.error` case. -/

/-- Message of the `AttributeError` raised by `.get` on a non-dict. -/
def attrGetError : String :=
  "object has no attribute " ++ squote ++ "get" ++ squote

/-- One element of the generator inside `_summarize_rankings`. -/
def formatRankRow (row : Val) : Except String String :=
  match row with
  | .vObj r =>
    .ok (pyStr (pyOr (pyGet r "nodeName") (pyGetD r "name" (.vStr "Unknown"))) ++
      " (score=" ++ pyStr (pyOr (pyGet r "score") (pyGet r "articleRank")) ++ ")")
  | _ => .error attrGetError

/-- `_summarize_rankings`. -/
def summarize_rankings (content : List Dict) : Except String Val :=
  match content with
  | [] => .ok (.vStr "No influential nodes found.")
  | first :: _ =>
    let rows := (dlookup first "json").getD (.vList (content.map .vObj))
    match rows with
    | .vList rs =>
      match (rs.take 5).mapM formatRankRow with
      | .ok parts => .ok (.vStr ("Top ranked nodes: " ++ pyJoin ", " parts))
      | .error e => .error e
    | _ => .ok (pyOr (pyGet first "text") (.vStr "Influence ranking computed."))

/-- `_summarize_leiden` (never raises: both `.get` calls act on values
already matched as dicts). -/
def summarize_leiden (content : List Dict) : Except String Val :=
  match content with
  | [] => .ok (.vStr "No communities detected.")
  | payload :: _ =>
    match dlookup payload "json" with
    | some (.vObj data) =>
      .ok (.vStr ("Detected " ++ pyStr (pyGetD data "communityCount" (.vStr "multiple")) ++
        " communities. Largest size: " ++ pyStr (pyGet data "largestCommunitySize") ++
        ", modularity: " ++ pyStr (pyGet data "modularity")))
    | _ => .ok (pyGetD payload "text" (.vStr "Leiden algorithm completed."))

/-- The three characters between source and target in the bridges
summary (the source file contains a mojibake arrow, code points
U+00E2 U+2020 U+2019). -/
def bridgeArrow : String :=
  String.mk [Char.ofNat 0xE2, Char.ofNat 0x2020, Char.ofNat 0x2019]

/-- One element of the generator inside `_summarize_bridges`. -/
def formatBridgeRow (row : Val) : Except String String :=
  match row with
  | .vObj r =>
    .ok (pyStr (pyGet r "source") ++ bridgeArrow ++ pyStr (pyGet r "target"))
  | _ => .error attrGetError

/-- `_summarize_bridges`. -/
def summarize_bridges (content : List Dict) : Except String Val :=
  match content with
  | [] => .ok (.vStr "No bridge edges found.")
  | payload :: _ =>
    match dlookup payload "json" with
    | some (.vList bridges) =>
      match (bridges.take 5).mapM formatBridgeRow with
      | .ok parts =>
        .ok (.vStr ("Found " ++ toString bridges.length ++ " bridge edges. Examples: " ++
          pyJoin ", " parts))
      | .error e => .error e
    | _ => .ok (pyGetD payload "text" (.vStr "Bridge detection completed."))

/-- `_summarize_text_result`. -/
def summarize_text_result (content : List Dict) : Except String Val :=
  match content with
  | [] => .ok (.vStr "No data returned.")
  | first :: _ =>
    match dlookup first "text" with
    | some t => .ok t
    | none => .ok (.vStr (jsonVal (.vObj first)))

/-! ### Tool configuration (`ToolConfig` dataclass and
`_build_default_configs`, lines 21-31 and 481-511). -/

/-- The `ToolConfig` dataclass. -/
structure ToolConfig where
  name : String
  description : String
  keywords : List String
  defaults : Dict := []
  summary_builder : Option (List Dict → Except String Val) := none

/-- `GraphAnalyticsAgent._build_default_configs`. -/
def build_default_configs : List ToolConfig :=
  [{ name := "article_rank",
     description := "Ranks nodes by influence using ArticleRank (PageRank variant).",
     keywords := ["influencer", "important", "central", "rank", "pagerank"],
     defaults := [("maxIterations", .vInt 20), ("tolerance", .vNum 1 4)],
     summary_builder := some summarize_rankings },
   { name := "leiden",
     description := "Community detection using the Leiden algorithm.",
     keywords := ["community", "cluster", "group", "modularity"],
     defaults := [("minCommunitySize", .vInt 5), ("tolerance", .vNum 1 4)],
     summary_builder := some summarize_leiden },
   { name := "bridges",
     description := "Detects bridge edges connecting graph components.",
     keywords := ["bridge", "bottleneck", "critical connection", "cut edge"],
     defaults := [],
     summary_builder := some summarize_bridges },
   { name := "count_nodes",
     description := "Counts nodes per label.",
     keywords := ["count nodes", "size", "how many nodes", "dataset size"],
     defaults := [],
     summary_builder := some summarize_text_result }]

/-! ### Schema summarizer
(`_summarize_schema_for_tool_selection`, lines 153-221). -/

/-- The backtick character. -/
def btick : Char := Char.ofNat 96

/-- Sentinel returned by the schema cache when no schema is cached. -/
def schemaNotAvailable : String := "Graph schema not available."

/-- Sentinel returned when no schema sections were recognized. -/
def schemaSummaryNotAvailable : String := "Graph schema summary not available."

/-- Section header recognizing node property declarations. -/
def hdrNodeProps : List Char := "Node properties:".data

/-- Section header recognizing relationship property declarations. -/
def hdrRelProps : List Char := "Relationship properties:".data

/-- Section header recognizing relationship patterns. -/
def hdrRels : List Char := "The relationships:".data

/-- The `)-[:` token recognizing a relationship pattern line. -/
def relPatToken : List Char := ")-[:".data

/-- State of the line scan inside the schema summarizer. -/
structure ScanState where
  node_labels : List (List Char)
  rel_types : List (List Char)
  relationships : List (List Char)
  in_node_props : Bool
  in_rel_props : Bool
  in_rels : Bool

/-- Initial scan state. -/
def initScan : ScanState := ⟨[], [], [], false, false, false⟩

/-- Python expression `line.split(backtick)[1] if backtick in line
else None`. -/
def backtickSecond (line : List Char) : Option (List Char) :=
  if line.contains btick then (splitOnChar btick line).get? 1 else none

/-- Effect of one iteration of the `for line in lines` loop of the
schema summarizer on the scan state. -/
def scanLine (st : ScanState) (line : List Char) : ScanState :=
  if subStr hdrNodeProps line then
    { st with in_node_props := true, in_rel_props := false, in_rels := false }
  else if subStr hdrRelProps line then
    { st with in_node_props := false, in_rel_props := true, in_rels := false }
  else if subStr hdrRels line then
    { st with in_node_props := false, in_rel_props := false, in_rels := true }
  else if st.in_node_props && [':', btick].isPrefixOf (pyStrip line) then
    match backtickSecond line with
    | some lbl => if lbl.isEmpty then st else { st with node_labels := st.node_labels ++ [lbl] }
    | none => st
  else if st.in_rel_props && [':', btick].isPrefixOf (pyStrip line) then
    match backtickSecond line with
    | some rt => if rt.isEmpty then st else { st with rel_types := st.rel_types ++ [rt] }
    | none => st
  else if st.in_rels && subStr relPatToken line then
    { st with relationships := st.relationships ++ [pyStrip line] }
  else st

/-- Lexicographic (code point) order on character lists, the order
Python `sorted` uses on strings. -/
def ltCharList : List Char → List Char → Bool
  | [], [] => false
  | [], _ :: _ => true
  | _ :: _, [] => false
  | a :: as, b :: bs =>
    if a.toNat < b.toNat then true
    else if b.toNat < a.toNat then false
    else ltCharList as bs

/-- Insertion into a sorted list. -/
def insertSorted (x : List Char) : List (List Char) → List (List Char)
  | [] => [x]
  | y :: ys => if ltCharList x y then x :: y :: ys else y :: insertSorted x ys

/-- Insertion sort by `ltCharList`. -/
def sortLex (l : List (List Char)) : List (List Char) :=
  l.foldr insertSorted []

/-- Removal of adjacent duplicates (after sorting, this is set
deduplication). -/
def dedupAdj : List (List Char) → List (List Char)
  | [] => []
  | [x] => [x]
  | x :: y :: rest => if x = y then dedupAdj (y :: rest) else x :: dedupAdj (y :: rest)

/-- Python `sorted(set(xs))` for a list of strings. -/
def sortedSet (xs : List (List Char)) : List (List Char) :=
  dedupAdj (sortLex xs)

/-- `GraphAnalyticsAgent._summarize_schema_for_tool_selection`
(`if not full_schema` is the emptiness test on a string). -/
def summarize_schema_for_tool_selection (full_schema : String) : String :=
  if full_schema = "" ∨ full_schema = schemaNotAvailable then full_schema
  else
    let lines := splitOnChar '\n' full_schema.data
    let st := lines.foldl scanLine initScan
    let summary_parts : List String :=
      (if st.node_labels.isEmpty then [] else
        ["Node labels: " ++ pyJoin ", " ((sortedSet st.node_labels).map String.mk)]) ++
      (if st.rel_types.isEmpty then [] else
        ["Relationship types: " ++ pyJoin ", " ((sortedSet st.rel_types).map String.mk)]) ++
      (if st.relationships.isEmpty then [] else
        ["Key relationships:\n" ++ pyJoin "\n" ((st.relationships.take 10).map String.mk)])
    if summary_parts.isEmpty then schemaSummaryNotAvailable
    else pyJoin "\n" summary_parts

/-! ### Keyword fallback matcher (`_infer_tool`, lines 223-250).
The Python method iterates keywords and, inside that, question words,
returning `config.name` from whichever check fires first; as every
check returns the same value for a given config, the method returns
the name of the first config having any matching keyword. -/

/-- Match of one lowered keyword against the lowered question and its
whitespace tokens: the three checks of `_infer_tool` (substring of the
question, substring of a word, word starts with the keyword). -/
def kwMatch (normalized : List Char) (words : List (List Char)) (kw_lower : List Char) : Bool :=
  subStr kw_lower normalized ||
    words.any (fun word => subStr kw_lower word || kw_lower.isPrefixOf word)

/-- Whether a config has any keyword matching the question under the
checks of `_infer_tool`. -/
def hasKwMatch (question : String) (config : ToolConfig) : Bool :=
  let normalized := pyLower question.data
  config.keywords.any (fun kw => kwMatch normalized (splitWs normalized) (pyLower kw.data))

/-- `GraphAnalyticsAgent._infer_tool`. -/
def infer_tool (configs : List ToolConfig) (question : String) : Option String :=
  configs.findSome? (fun config => if hasKwMatch question config then some config.name else none)

/-! ### Registry construction (`GraphAnalyticsAgent.__init__`,
lines 67-73). -/

/-- The effective configuration list: the supplied list (the built-in
defaults when none is supplied), filtered by the allow-list when the
allow-list is non-empty (`set(allowed_tool_names or [])` is modelled
by the list itself, used only through membership). -/
def effective_configs (tool_configs : Option (List ToolConfig))
    (allowed_tool_names : Option (List String)) : List ToolConfig :=
  let allowed := allowed_tool_names.getD []
  let configs := match tool_configs with
    | some cs => cs
    | none => build_default_configs
  if allowed.isEmpty then configs
  else configs.filter (fun cfg => allowed.contains cfg.name)

/-- Message of the `ValueError` raised for an empty registry. -/
def msgNoTools : String := "No graph analytics tools configured or allowed."

/-- Registry construction in `__init__`: the dict comprehension
`{config.name: config for config in configs}` followed by the
empty-registry check. -/
def initRegistry (tool_configs : Option (List ToolConfig))
    (allowed_tool_names : Option (List String)) : Except String (PyDict ToolConfig) :=
  let configs := effective_configs tool_configs allowed_tool_names
  let registry := dupdate [] (configs.map (fun cfg => (cfg.name, cfg)))
  if registry.isEmpty then .error msgNoTools else .ok registry

/-! ### Argument synthesis (`_prepare_inputs`, lines 429-449) and the
run pipeline (`run`, lines 91-147).  The LLM selector and the MCP
client are the external collaborators of `run`; they enter the
embedding as the `selection` and `callTool` parameters.  Python
exceptions raised by the backend and the `GraphAnalyticsAgentError`
raised by `run` are both `Except.error` with the exception message. -/

/-- The fixed pair of geographic node labels. -/
def geoNodeLabels : Val := .vList [.vStr "Area", .vStr "Municipality"]

/-- First three steps of `_prepare_inputs` (before the overrides are
applied): a copy of the defaults, the identifier property when absent,
the geo filters by `setdefault`. -/
def prepare_base (default_identifier_property : String) (config : ToolConfig)
    (question : String) : Dict :=
  let inputs := config.defaults
  let inputs :=
    if dcontains inputs "nodeIdentifierProperty" then inputs
    else dinsert inputs ("nodeIdentifierProperty", .vStr default_identifier_property)
  let geos := extract_geo_filters question
  if geos.isEmpty then inputs
  else dsetdefault (dsetdefault inputs "nodeLabels" geoNodeLabels)
    "filterNames" (.vList (geos.map .vStr))

/-- `GraphAnalyticsAgent._prepare_inputs`: the base of defaults,
identifier property and geo filters, then the overrides
(`if overrides: inputs.update(overrides)`). -/
def prepare_inputs (default_identifier_property : String) (config : ToolConfig)
    (question : String) (overrides : Dict) : Dict :=
  let inputs := prepare_base default_identifier_property config question
  if overrides.isEmpty then inputs else dupdate inputs overrides

/-- Generic fallback summary (`_build_summary` after the dedicated
summarizer, lines 469-479). -/
def generic_summary (config : ToolConfig) (content : List Dict) : Val :=
  match content with
  | [] => .vStr ("Tool " ++ squote ++ config.name ++ squote ++ " returned no results.")
  | first :: rest =>
    if rest.isEmpty && dcontains first "text" then (dlookup first "text").getD .vNull
    else
      .vStr ("Tool " ++ squote ++ config.name ++ squote ++ " returned " ++
        toString (first :: rest).length ++ " rows. First entry: " ++
        jsonVal (.vList (((first :: rest).take 1).map .vObj)))

/-- `GraphAnalyticsAgent._build_summary`: the dedicated summarizer when
present, any exception it raises swallowed in favour of the generic
summary. -/
def build_summary (config : ToolConfig) (content : List Dict) (question : String) : Val :=
  match config.summary_builder with
  | some sb =>
    match sb content with
    | .ok s => s
    | .error _ => generic_summary config content
  | none => generic_summary config content

/-- The agent state entering `run` (the registry and the constructor
options `run` reads). -/
structure AgentState where
  tool_configs : PyDict ToolConfig
  default_identifier_property : String := "name"
  use_llm_selector : Bool := true

/-- A non-`None` return of `_select_tool_with_llm` (the dict
`'tool': ..., 'inputs': ..., 'reason': ...`); `run` reads `tool` and
`inputs` with `.get`. -/
structure Selection where
  tool : Option String
  inputs : Dict
  reason : Val := .vNull

/-- The structured result (`GraphAnalyticsResult` dataclass). -/
structure GraphAnalyticsResult where
  tool_name : String
  inputs : Dict
  raw_result : List Dict
  summary : Val

/-- Error message of the selection-exhausted failure in semantic mode. -/
def msgLLMFail : String :=
  "Could not infer a graph analytics tool for this question. " ++
    "The LLM tool selector did not find a suitable tool."

/-- Error message of the selection-exhausted failure in keyword mode. -/
def msgKwFail : String := "Could not infer a graph analytics tool for this question."

/-- Error message for a resolved tool missing from the registry. -/
def msgUnsupported (tool_name : String) : String := "Unsupported tool: " ++ tool_name

/-- Error message wrapping an execution backend exception. -/
def msgToolCallFailed (tool_name exc : String) : String :=
  "Tool call failed for " ++ squote ++ tool_name ++ squote ++ ": " ++ exc

/-- Lines 126-128 of `run` at the level of dict values:
`combined_inputs = dict(llm_suggested_inputs)` then
`if inputs: combined_inputs.update(inputs)`. -/
def combine_inputs (llm_suggested_inputs : Dict) (inputs : Option Dict) : Dict :=
  match inputs with
  | some i => if i.isEmpty then llm_suggested_inputs else dupdate llm_suggested_inputs i
  | none => llm_suggested_inputs

/-- Tail of `run` from the registry check on (lines 122-147): the
registry lookup, the two merge passes building `combined_inputs`,
argument synthesis, the backend call with its error wrapping, and the
result construction. -/
def run_with_tool (agent : AgentState)
    (callTool : String → Dict → Except String (List Dict))
    (question : String) (tool_name : String) (llm_suggested_inputs : Dict)
    (inputs : Option Dict) : Except String GraphAnalyticsResult :=
  match dlookup agent.tool_configs tool_name with
  | none => .error (msgUnsupported tool_name)
  | some config =>
    let prepared_inputs :=
      prepare_inputs agent.default_identifier_property config question
        (combine_inputs llm_suggested_inputs inputs)
    match callTool tool_name prepared_inputs with
    | .error exc => .error (msgToolCallFailed tool_name exc)
    | .ok result_content =>
      .ok ⟨tool_name, prepared_inputs, result_content,
        build_summary config result_content question⟩

/-- `GraphAnalyticsAgent.run`.  `selection` is the value returned by
`_select_tool_with_llm` (consulted only when no tool name is supplied
and the LLM selector is enabled); `callTool` is the MCP client. -/
def run (agent : AgentState) (selection : Option Selection)
    (callTool : String → Dict → Except String (List Dict))
    (question : String) (tool_name : Option String) (inputs : Option Dict) :
    Except String GraphAnalyticsResult :=
  let sel : Option String × Dict :=
    match tool_name with
    | some tn => (some tn, [])
    | none =>
      if agent.use_llm_selector then
        match selection with
        | some s => (s.tool, s.inputs)
        | none => (none, [])
      else (none, [])
  match sel.1 with
  | some tn => run_with_tool agent callTool question tn sel.2 inputs
  | none =>
    if agent.use_llm_selector then .error msgLLMFail
    else
      match infer_tool (agent.tool_configs.map Prod.snd) question with
      | some tn => run_with_tool agent callTool question tn sel.2 inputs
      | none => .error msgKwFail

/-! ### Object-level model of the merging steps (for the frame
property of `run`).  Python dicts are heap objects; `dict(x)` copies,
while `.update`/`.setdefault`/subscript assignment mutate in place.
The heap maps references (allocation order) to dict values; every
step of lines 126-130 and 435-449 is replayed on references, so that
mutation targets are explicit. -/

/-- A heap of Python dict objects. -/
structure PyHeap where
  next : Nat
  mem : Nat → Dict

/-- Allocation of a fresh dict object (also the model of `dict(x)`,
applied to the value read from `x`). -/
def halloc (h : PyHeap) (d : Dict) : PyHeap × Nat :=
  (⟨h.next + 1, fun i => if i = h.next then d else h.mem i⟩, h.next)

/-- Read of a dict object. -/
def hread (h : PyHeap) (r : Nat) : Dict := h.mem r

/-- In-place overwrite of a dict object. -/
def hwrite (h : PyHeap) (r : Nat) (d : Dict) : PyHeap :=
  ⟨h.next, fun i => if i = r then d else h.mem i⟩

/-- `_prepare_inputs` replayed on the heap: `inputs = dict(config.defaults)`
allocates a copy, and every later step mutates only that copy;
`overridesRef` (the `overrides` parameter) is only read. -/
def prepare_inputs_ref (h : PyHeap) (default_identifier_property : String)
    (defaultsRef : Nat) (question : String) (overridesRef : Option Nat) : PyHeap × Nat :=
  let a := halloc h (hread h defaultsRef)
  let h := a.1
  let inputsRef := a.2
  let h :=
    if dcontains (hread h inputsRef) "nodeIdentifierProperty" then h
    else hwrite h inputsRef
      (dinsert (hread h inputsRef) ("nodeIdentifierProperty", .vStr default_identifier_property))
  let geos := extract_geo_filters question
  let h :=
    if geos.isEmpty then h
    else
      let h := hwrite h inputsRef (dsetdefault (hread h inputsRef) "nodeLabels" geoNodeLabels)
      hwrite h inputsRef (dsetdefault (hread h inputsRef) "filterNames" (.vList (geos.map .vStr)))
  let h :=
    match overridesRef with
    | some r =>
      if (hread h r).isEmpty then h
      else hwrite h inputsRef (dupdate (hread h inputsRef) (hread h r))
    | none => h
  (h, inputsRef)

/-- Lines 126-130 of `run` replayed on the heap:
`combined_inputs = dict(llm_suggested_inputs)` allocates a copy,
`combined_inputs.update(inputs)` mutates only that copy, and
`_prepare_inputs` receives the copy as its `overrides` reference.
Returns the heap and the reference of the prepared inputs. -/
def run_merge_ref (h : PyHeap) (default_identifier_property : String)
    (defaultsRef llmSuggestedRef : Nat) (inputsRef : Option Nat) (question : String) :
    PyHeap × Nat :=
  let a := halloc h (hread h llmSuggestedRef)
  let h := a.1
  let combinedRef := a.2
  let h :=
    match inputsRef with
    | some r =>
      if (hread h r).isEmpty then h
      else hwrite h combinedRef (dupdate (hread h combinedRef) (hread h r))
    | none => h
  prepare_inputs_ref h default_identifier_property defaultsRef question (some combinedRef)

/-! ## Lemma layer: dictionary algebra -/

/-- First defined option. -/
def oFirst {α : Type} : Option α → Option α → Option α
  | some v, _ => some v
  | none, b => b

theorem oFirst_none_right {α : Type} (a : Option α) : oFirst a none = a := by
  cases a <;> rfl

theorem oFirst_assoc {α : Type} (a b c : Option α) :
    oFirst (oFirst a b) c = oFirst a (oFirst b c) := by
  cases a <;> rfl

theorem dlookup_append {α : Type} (d e : PyDict α) (k : String) :
    dlookup (d ++ e) k = oFirst (dlookup d k) (dlookup e k) := by
  induction d with
  | nil => rfl
  | cons p rest ih =>
    obtain ⟨k', v⟩ := p
    by_cases h : k' = k <;> simp [dlookup, h, ih, oFirst]

theorem dlookup_isSome_iff {α : Type} (d : PyDict α) (k : String) :
    (dlookup d k).isSome = true ↔ ∃ v, (k, v) ∈ d := by
  induction d with
  | nil => simp [dlookup]
  | cons p rest ih =>
    obtain ⟨k', v⟩ := p
    by_cases h : k' = k
    · subst h
      constructor
      · intro _
        exact ⟨v, List.mem_cons_self _ _⟩
      · intro _
        simp [dlookup]
    · simp only [dlookup, if_neg h, ih, List.mem_cons]
      constructor
      · rintro ⟨w, hw⟩; exact ⟨w, Or.inr hw⟩
      · rintro ⟨w, hw | hw⟩
        · cases hw; exact absurd rfl h
        · exact ⟨w, hw⟩

theorem dcontains_reverse {α : Type} (d : PyDict α) (k : String) :
    dcontains d.reverse k = dcontains d k := by
  unfold dcontains
  rw [Bool.eq_iff_iff, dlookup_isSome_iff, dlookup_isSome_iff]
  constructor
  · rintro ⟨v, hv⟩; exact ⟨v, List.mem_reverse.mp hv⟩
  · rintro ⟨v, hv⟩; exact ⟨v, List.mem_reverse.mpr hv⟩

theorem dlookup_none_of_not_contains {α : Type} {d : PyDict α} {k : String}
    (h : ¬ dcontains d k = true) : dlookup d k = none := by
  cases hl : dlookup d k with
  | none => rfl
  | some w => exact absurd (by simp [dcontains, hl]) h

theorem dcontains_cons_head {α : Type} (k : String) (v : α) (rest : PyDict α) :
    dcontains ((k, v) :: rest) k = true := by
  simp [dcontains, dlookup]

theorem dlookup_map_overwrite {α : Type} (d : PyDict α) (key : String) (v : α) (k : String) :
    dlookup (d.map (fun q => if q.1 = key then (key, v) else q)) k =
      if key = k then (if dcontains d key then some v else none) else dlookup d k := by
  induction d with
  | nil => by_cases h : key = k <;> simp [dlookup, dcontains, h]
  | cons p rest ih =>
    obtain ⟨k', w⟩ := p
    simp only [List.map_cons]
    by_cases hk : k' = key
    · subst hk
      rw [if_pos rfl]
      show (if k' = k then some v else dlookup (rest.map _) k) = _
      by_cases h : k' = k
      · rw [if_pos h, if_pos h, if_pos (h ▸ dcontains_cons_head _ _ _)]
      · rw [if_neg h, ih, if_neg h, if_neg h]
        show dlookup rest k = dlookup ((k', w) :: rest) k
        simp [dlookup, if_neg h]
    · rw [if_neg hk]
      show (if k' = k then some w else dlookup (rest.map _) k) = _
      by_cases h : key = k
      · have hk'k : ¬ k' = k := fun hh => hk (hh.trans h.symm)
        rw [if_neg hk'k, ih, if_pos h, if_pos h]
        have hcc : dcontains ((k', w) :: rest) key = dcontains rest key := by
          simp [dcontains, dlookup, if_neg hk]
        rw [hcc]
      · rw [ih, if_neg h, if_neg h]
        rfl

theorem dlookup_dinsert {α : Type} (d : PyDict α) (p : String × α) (k : String) :
    dlookup (dinsert d p) k = if p.1 = k then some p.2 else dlookup d k := by
  obtain ⟨key, v⟩ := p
  unfold dinsert
  by_cases hc : dcontains d key
  · rw [if_pos hc, dlookup_map_overwrite]
    by_cases h : key = k
    · simp [h, h ▸ hc]
    · simp [h]
  · rw [if_neg hc, dlookup_append]
    by_cases h : key = k
    · subst h
      rw [dlookup_none_of_not_contains hc]
      simp [dlookup, oFirst]
    · simp [dlookup, h, oFirst_none_right]
theorem lastLookup_nil {α : Type} (k : String) : lastLookup ([] : PyDict α) k = none := rfl

theorem lastLookup_cons {α : Type} (p : String × α) (l : PyDict α) (k : String) :
    lastLookup (p :: l) k =
      oFirst (lastLookup l k) (if p.1 = k then some p.2 else none) := by
  unfold lastLookup
  rw [List.reverse_cons, dlookup_append]
  obtain ⟨k', v⟩ := p
  by_cases h : k' = k <;> simp [dlookup, h]

theorem lastLookup_dinsert {α : Type} (d : PyDict α) (p : String × α) (k : String) :
    lastLookup (dinsert d p) k = if p.1 = k then some p.2 else lastLookup d k := by
  obtain ⟨key, v⟩ := p
  unfold dinsert
  by_cases hc : dcontains d key
  · rw [if_pos hc]
    unfold lastLookup
    rw [← List.map_reverse, dlookup_map_overwrite, dcontains_reverse]
    by_cases h : key = k
    · simp [h, h ▸ hc]
    · simp [h]
  · rw [if_neg hc]
    unfold lastLookup
    rw [List.reverse_append, dlookup_append]
    by_cases h : key = k <;> simp [dlookup, h, oFirst]

theorem dlookup_dupdate {α : Type} (l d : PyDict α) (k : String) :
    dlookup (dupdate d l) k = oFirst (lastLookup l k) (dlookup d k) := by
  induction l generalizing d with
  | nil => rfl
  | cons p rest ih =>
    show dlookup (dupdate (dinsert d p) rest) k = _
    rw [ih, lastLookup_cons, dlookup_dinsert, oFirst_assoc]
    congr 1
    by_cases h : p.1 = k <;> simp [h, oFirst]

theorem lastLookup_dupdate {α : Type} (l d : PyDict α) (k : String) :
    lastLookup (dupdate d l) k = oFirst (lastLookup l k) (lastLookup d k) := by
  induction l generalizing d with
  | nil => rfl
  | cons p rest ih =>
    show lastLookup (dupdate (dinsert d p) rest) k = _
    rw [ih, lastLookup_cons, lastLookup_dinsert, oFirst_assoc]
    congr 1
    by_cases h : p.1 = k <;> simp [h, oFirst]

theorem dlookup_dsetdefault {α : Type} (d : PyDict α) (key : String) (v : α) (k : String) :
    dlookup (dsetdefault d key v) k =
      if key = k then oFirst (dlookup d k) (some v) else dlookup d k := by
  unfold dsetdefault
  by_cases hc : dcontains d key
  · rw [if_pos hc]
    by_cases h : key = k
    · subst h
      unfold dcontains at hc
      obtain ⟨w, hw⟩ := Option.isSome_iff_exists.mp hc
      simp [hw, oFirst]
    · simp [h]
  · rw [if_neg hc, dlookup_append]
    by_cases h : key = k
    · subst h
      rw [dlookup_none_of_not_contains hc]
      simp [dlookup, oFirst]
    · simp [dlookup, h, oFirst_none_right]

theorem dcontains_dsetdefault_ne {α : Type} (d : PyDict α) (key : String) (v : α)
    (k : String) (h : key ≠ k) : dcontains (dsetdefault d key v) k = dcontains d k := by
  unfold dcontains
  rw [dlookup_dsetdefault, if_neg h]

theorem dcontains_dinsert_ne {α : Type} (d : PyDict α) (p : String × α)
    (k : String) (h : p.1 ≠ k) : dcontains (dinsert d p) k = dcontains d k := by
  unfold dcontains
  rw [dlookup_dinsert, if_neg h]

theorem length_le_dinsert {α : Type} (d : PyDict α) (p : String × α) :
    d.length ≤ (dinsert d p).length := by
  unfold dinsert
  by_cases hc : dcontains d p.1 <;> simp [hc]

theorem length_le_dupdate {α : Type} (l d : PyDict α) :
    d.length ≤ (dupdate d l).length := by
  induction l generalizing d with
  | nil => exact Nat.le_refl _
  | cons p rest ih =>
    exact Nat.le_trans (length_le_dinsert d p) (ih (dinsert d p))

theorem dupdate_nil_eq_nil_iff {α : Type} (l : PyDict α) :
    dupdate ([] : PyDict α) l = [] ↔ l = [] := by
  constructor
  · intro h
    cases l with
    | nil => rfl
    | cons p rest =>
      exfalso
      have h1 : (1 : Nat) ≤ (dupdate ([] : PyDict α) (p :: rest)).length := by
        calc (1 : Nat) = (dinsert ([] : PyDict α) p).length := by simp [dinsert, dcontains, dlookup]
        _ ≤ (dupdate (dinsert ([] : PyDict α) p) rest).length := length_le_dupdate _ _
        _ = (dupdate ([] : PyDict α) (p :: rest)).length := rfl
      rw [h] at h1
      simp at h1
  · rintro rfl; rfl

theorem dlookup_eq_none_of_forall_ne {α : Type} {l : PyDict α} {k : String}
    (h : ∀ p ∈ l, p.1 ≠ k) : dlookup l k = none := by
  induction l with
  | nil => rfl
  | cons p rest ih =>
    obtain ⟨k', v⟩ := p
    have hk : k' ≠ k := h (k', v) (List.mem_cons_self _ _)
    simp only [dlookup, if_neg hk]
    exact ih (fun q hq => h q (List.mem_cons_of_mem _ hq))

theorem lastLookup_map_name_nodup {l : List ToolConfig} {c : ToolConfig}
    (hn : (l.map (fun c => c.name)).Nodup) (hc : c ∈ l) :
    lastLookup (l.map (fun c => (c.name, c))) c.name = some c := by
  induction l with
  | nil => cases hc
  | cons a rest ih =>
    simp only [List.map_cons, List.nodup_cons] at hn
    rw [List.map_cons, lastLookup_cons]
    rcases List.mem_cons.mp hc with rfl | hmem
    · have hnone : lastLookup (rest.map (fun c => (c.name, c))) c.name = none := by
        unfold lastLookup
        apply dlookup_eq_none_of_forall_ne
        intro p hp
        rw [List.mem_reverse, List.mem_map] at hp
        obtain ⟨c', hc', rfl⟩ := hp
        intro hne
        exact hn.1 (hne ▸ List.mem_map_of_mem _ hc')
      rw [hnone]
      simp [oFirst]
    · rw [ih hn.2 hmem]
      rfl

/-! ## Claim theorems -/

/-- Configurations with a duplicated name, exercising the registry
comprehension of `__init__`. -/
def dupNameCfgA : ToolConfig := { name := "t", description := "first", keywords := [] }

/-- Second configuration bearing the same name as `dupNameCfgA`. -/
def dupNameCfgB : ToolConfig := { name := "t", description := "second", keywords := [] }

/-- Claim C5, counterexample.  The claim says construction succeeds
with a registry mapping each descriptor name to that descriptor, for
every supplied descriptor list.  When two supplied descriptors share a
name, the dict comprehension keeps only the later one: here the
registry maps the name of `dupNameCfgA` to a descriptor with a
different description, so `dupNameCfgA` is not in the registry. -/
theorem claim_C5_counterexample :
    initRegistry (some [dupNameCfgA, dupNameCfgB]) none = .ok [("t", dupNameCfgB)] ∧
    dlookup [("t", dupNameCfgB)] "t" = some dupNameCfgB ∧
    dupNameCfgA.name = "t" ∧
    dupNameCfgB.description ≠ dupNameCfgA.description := by
  refine ⟨rfl, rfl, rfl, ?_⟩
  intro h
  have : dupNameCfgB.description = "second" := rfl
  rw [this] at h
  exact absurd h (by decide)

/-- Claim C5 (amended): agent construction computes the effective
registry as the supplied list (or the built-in defaults when none is
supplied) filtered by the allow-list when the allow-list is non-empty,
raises the construction error if and only if that effective list is
empty, and on success maps each name to the last effective descriptor
bearing it — hence, when the effective descriptor names are distinct,
each descriptor's name maps to that descriptor. -/
theorem claim_C5_registry :
    (∀ tc al, initRegistry tc al = .error msgNoTools ↔ effective_configs tc al = []) ∧
    (∀ tc al reg n, initRegistry tc al = .ok reg →
      dlookup reg n = lastLookup ((effective_configs tc al).map (fun c => (c.name, c))) n) ∧
    (∀ tc al reg c, initRegistry tc al = .ok reg →
      ((effective_configs tc al).map (fun c => c.name)).Nodup →
      c ∈ effective_configs tc al → dlookup reg c.name = some c) := by
  have hinit : ∀ tc al, initRegistry tc al =
      if (dupdate [] ((effective_configs tc al).map (fun cfg => (cfg.name, cfg)))).isEmpty
      then .error msgNoTools
      else .ok (dupdate [] ((effective_configs tc al).map (fun cfg => (cfg.name, cfg)))) :=
    fun _ _ => rfl
  have hok : ∀ tc al reg n, initRegistry tc al = .ok reg →
      dlookup reg n = lastLookup ((effective_configs tc al).map (fun c => (c.name, c))) n := by
    intro tc al reg n h
    rw [hinit] at h
    split at h
    · exact Except.noConfusion h
    · cases h
      rw [dlookup_dupdate]
      show oFirst _ none = _
      exact oFirst_none_right _
  refine ⟨?_, hok, ?_⟩
  · intro tc al
    rw [hinit]
    split
    all_goals rename_i he
    · simp only [List.isEmpty_iff] at he
      constructor
      · intro _
        exact List.map_eq_nil_iff.mp ((dupdate_nil_eq_nil_iff _).mp he)
      · intro _
        rfl
    · constructor
      · intro h
        exact Except.noConfusion h
      · intro h
        exfalso
        apply he
        rw [h]
        rfl
  · intro tc al reg c h hn hc
    rw [hok tc al reg c.name h]
    exact lastLookup_map_name_nodup hn hc

/-- The first built-in configuration. -/
def articleRankConfig : ToolConfig :=
  build_default_configs.headD { name := "", description := "", keywords := [] }

/-- The registry built from the built-in default configurations. -/
def defaultRegistry : PyDict ToolConfig :=
  dupdate [] (build_default_configs.map (fun cfg => (cfg.name, cfg)))

theorem claim_C5_registry_witness :
    initRegistry (some []) none = .error msgNoTools ∧
    dlookup defaultRegistry "article_rank" = some articleRankConfig :=
  ⟨(claim_C5_registry.1 (some []) none).mpr rfl,
   claim_C5_registry.2.2 none none defaultRegistry articleRankConfig rfl (by decide)
     (List.mem_cons_self _ _)⟩

/-- A dedicated summarizer that always raises. -/
def boomBuilder : List Dict → Except String Val := fun _ => .error "boom"

/-- A configuration whose dedicated summarizer always raises. -/
def cfgBoom : ToolConfig :=
  { name := "t", description := "", keywords := [], defaults := [],
    summary_builder := some boomBuilder }

/-- Claim C7: when the dedicated summarizer raises, `_build_summary`
swallows the exception and returns the generic summary, which is the
no-results message for an empty list, the single item's `text` value
verbatim when the only item carries one, and otherwise the row-count
message with a JSON rendering of the first item; `_build_summary` is a
total function, so summarization never raises and the call is never
aborted by it. -/
theorem claim_C7_summary_fallback :
    (∀ config content f e question, config.summary_builder = some f →
      f content = .error e →
      build_summary config content question = generic_summary config content) ∧
    (∀ config, generic_summary config [] =
      .vStr ("Tool " ++ squote ++ config.name ++ squote ++ " returned no results.")) ∧
    (∀ config item v, dlookup item "text" = some v →
      generic_summary config [item] = v) ∧
    (∀ config first rest, (rest = [] → dcontains first "text" = false) →
      generic_summary config (first :: rest) =
        .vStr ("Tool " ++ squote ++ config.name ++ squote ++ " returned " ++
          toString (first :: rest).length ++ " rows. First entry: " ++
          jsonVal (.vList [.vObj first]))) := by
  refine ⟨?_, fun _ => rfl, ?_, ?_⟩
  · intro config content f e question hf herr
    unfold build_summary
    rw [hf]
    show (match f content with
      | Except.ok s => s
      | Except.error _ => generic_summary config content) = _
    rw [herr]
  · intro config item v hv
    unfold generic_summary
    have hc : dcontains item "text" = true := by
      unfold dcontains
      rw [hv]
      rfl
    simp [hc, hv]
  · intro config first rest hrest
    unfold generic_summary
    cases rest with
    | nil =>
      have := hrest rfl
      simp [this]
    | cons b bs => simp

theorem claim_C7_summary_fallback_witness :
    build_summary cfgBoom [] "q" = generic_summary cfgBoom [] ∧
    generic_summary cfgBoom [[("text", Val.vStr "hi")]] = Val.vStr "hi" :=
  ⟨claim_C7_summary_fallback.1 cfgBoom [] boomBuilder "boom" "q" rfl rfl,
   claim_C7_summary_fallback.2.2.1 cfgBoom [("text", Val.vStr "hi")] (Val.vStr "hi") rfl⟩

theorem lastLookup_singleton {α : Type} (p : String × α) (k : String) :
    lastLookup [p] k = if p.1 = k then some p.2 else none := by
  unfold lastLookup
  rfl

theorem lastLookup_append {α : Type} (a b : PyDict α) (k : String) :
    lastLookup (a ++ b) k = oFirst (lastLookup b k) (lastLookup a k) := by
  unfold lastLookup
  rw [List.reverse_append, dlookup_append]

/-- The node-identifier layer of the precedence stack: present exactly
when the tool defaults do not already define the identifier argument
(`_prepare_inputs`, lines 438-439). -/
def identifier_layer (default_identifier_property : String) (config : ToolConfig) : Dict :=
  if dcontains config.defaults "nodeIdentifierProperty" then []
  else [("nodeIdentifierProperty", .vStr default_identifier_property)]

/-- The heuristic geographic layer of the precedence stack: present
exactly when the question yields geo filters, contributing the label
pair and the filter list for whichever of the two keys the defaults do
not already define (`_prepare_inputs`, lines 442-445). -/
def geo_layer (config : ToolConfig) (question : String) : Dict :=
  let geos := extract_geo_filters question
  if geos.isEmpty then []
  else
    (if dcontains config.defaults "nodeLabels" then [] else [("nodeLabels", geoNodeLabels)]) ++
    (if dcontains config.defaults "filterNames" then []
     else [("filterNames", .vList (geos.map .vStr))])

/-- The five-layer merge the claim describes, later layers
overwriting earlier ones: static defaults, injected identifier,
heuristic geo filters, selector-suggested inputs, caller overrides. -/
def layered_args (default_identifier_property : String) (config : ToolConfig)
    (question : String) (sel ov : Dict) : Dict :=
  dupdate (dupdate (dupdate (dupdate config.defaults
    (identifier_layer default_identifier_property config))
    (geo_layer config question)) sel) ov

theorem dlookup_dsetdefault_layer {α : Type} (d : PyDict α) (key : String) (v : α)
    (k : String) :
    dlookup (dsetdefault d key v) k =
      oFirst (lastLookup (if dcontains d key then [] else [(key, v)]) k) (dlookup d k) := by
  rw [dlookup_dsetdefault]
  by_cases hc : dcontains d key
  · rw [if_pos hc, lastLookup_nil]
    by_cases hk : key = k
    · subst hk
      obtain ⟨w, hw⟩ := Option.isSome_iff_exists.mp hc
      rw [if_pos rfl, hw]
      rfl
    · rw [if_neg hk]
      rfl
  · rw [if_neg hc, lastLookup_singleton]
    by_cases hk : key = k
    · subst hk
      rw [if_pos rfl, if_pos rfl, dlookup_none_of_not_contains hc]
      rfl
    · rw [if_neg hk, if_neg hk]
      rfl

theorem if_dinsert_eq_dsetdefault {α : Type} (d : PyDict α) (key : String) (v : α) :
    (if dcontains d key then d else dinsert d (key, v)) = dsetdefault d key v := by
  unfold dsetdefault dinsert
  by_cases hc : dcontains d key
  · rw [if_pos hc, if_pos hc]
  · rw [if_neg hc, if_neg hc, if_neg hc]

theorem prepare_base_lookup (idProp : String) (config : ToolConfig) (question : String)
    (k : String) :
    dlookup (prepare_base idProp config question) k =
      oFirst (lastLookup (geo_layer config question) k)
        (oFirst (lastLookup (identifier_layer idProp config) k)
          (dlookup config.defaults k)) := by
  simp only [prepare_base]
  rw [if_dinsert_eq_dsetdefault]
  set step2 := dsetdefault config.defaults "nodeIdentifierProperty" (.vStr idProp) with hs2
  have hstep2 : dlookup step2 k =
      oFirst (lastLookup (identifier_layer idProp config) k) (dlookup config.defaults k) := by
    rw [hs2, dlookup_dsetdefault_layer]
    rfl
  simp only [geo_layer]
  by_cases hg : (extract_geo_filters question).isEmpty
  · rw [if_pos hg, if_pos hg, lastLookup_nil]
    exact hstep2
  · rw [if_neg hg, if_neg hg]
    have hcNL : dcontains step2 "nodeLabels" = dcontains config.defaults "nodeLabels" := by
      rw [hs2]
      exact dcontains_dsetdefault_ne _ _ _ _ (by decide)
    have hcFN : dcontains (dsetdefault step2 "nodeLabels" geoNodeLabels) "filterNames" =
        dcontains config.defaults "filterNames" := by
      rw [dcontains_dsetdefault_ne _ _ _ _ (by decide), hs2]
      exact dcontains_dsetdefault_ne _ _ _ _ (by decide)
    rw [dlookup_dsetdefault_layer, dlookup_dsetdefault_layer, hcNL, hcFN, hstep2,
      lastLookup_append, oFirst_assoc]

theorem prepare_inputs_lookup (idProp : String) (config : ToolConfig) (question : String)
    (overrides : Dict) (k : String) :
    dlookup (prepare_inputs idProp config question overrides) k =
      oFirst (lastLookup overrides k) (dlookup (prepare_base idProp config question) k) := by
  simp only [prepare_inputs]
  by_cases ho : overrides.isEmpty
  · rw [if_pos ho, List.isEmpty_iff.mp ho, lastLookup_nil]
    rfl
  · rw [if_neg ho, dlookup_dupdate]

theorem combine_inputs_lastLookup (sel ov : Dict) (k : String) :
    lastLookup (combine_inputs sel (some ov)) k =
      oFirst (lastLookup ov k) (lastLookup sel k) := by
  simp only [combine_inputs]
  by_cases ho : ov.isEmpty
  · rw [if_pos ho, List.isEmpty_iff.mp ho, lastLookup_nil]
    rfl
  · rw [if_neg ho, lastLookup_dupdate]
/-- Config, selector inputs and overrides of the concrete precedence
example of the claim. -/
def c1Cfg : ToolConfig :=
  { name := "t", description := "", keywords := [], defaults := [("a", .vInt 1)] }

/-- Selector-suggested inputs of the precedence example. -/
def c1Sel : Dict := [("a", .vInt 2), ("b", .vInt 2)]

/-- Caller overrides of the precedence example. -/
def c1Ov : Dict := [("b", .vInt 3)]

/-- Claim C1, counterexample.  With defaults `a:1`, selector inputs
`a:2, b:2` and overrides `b:3`, the prepared mapping is not exactly
`a:2, b:3`: `_prepare_inputs` also injects the node-identifier
property, so the final mapping contains a key the claimed mapping does
not. -/
theorem claim_C1_counterexample :
    dlookup (prepare_inputs "name" c1Cfg "q" (combine_inputs c1Sel (some c1Ov)))
      "nodeIdentifierProperty" = some (.vStr "name") ∧
    dlookup [("a", Val.vInt 2), ("b", Val.vInt 3)] "nodeIdentifierProperty" = none :=
  ⟨rfl, rfl⟩

/-- Claim C1 (amended): the argument mapping `run` sends to execution
(`run_with_tool` calls the backend on exactly
`prepare_inputs _ _ _ (combine_inputs sel inputs)`) is, as a mapping,
the five-layer merge of the tool's static defaults, the injected
node-identifier property, the heuristic geographic filters, the
selector-suggested inputs and the caller overrides, each later layer
overwriting keys of earlier ones; the concrete example yields exactly
`a:2`, the injected identifier property, and `b:3`. -/
theorem claim_C1_argument_precedence :
    (∀ idProp config question sel ov k,
      dlookup (prepare_inputs idProp config question (combine_inputs sel (some ov))) k =
        dlookup (layered_args idProp config question sel ov) k) ∧
    prepare_inputs "name" c1Cfg "q" (combine_inputs c1Sel (some c1Ov)) =
      [("a", .vInt 2), ("nodeIdentifierProperty", .vStr "name"), ("b", .vInt 3)] := by
  refine ⟨?_, rfl⟩
  intro idProp config question sel ov k
  rw [prepare_inputs_lookup, combine_inputs_lastLookup, prepare_base_lookup]
  unfold layered_args
  rw [dlookup_dupdate, dlookup_dupdate, dlookup_dupdate, dlookup_dupdate, oFirst_assoc]

/-- Well-formedness of one extracted geo filter term: non-empty,
begins with an ASCII capital, consists only of the regex character
class, and does not end in a stripped character. -/
def wellFormedGeo (s : String) : Bool :=
  !s.data.isEmpty && isUpperAscii (s.data.headD 'a') && s.data.all isGeoChar &&
    !stripSet.contains (s.data.getLastD 'a')

theorem isGeoChar_of_upper {c : Char} (h : isUpperAscii c = true) :
    isGeoChar c = true := by
  unfold isUpperAscii at h
  unfold isGeoChar
  rw [h]
  rfl

theorem not_strip_of_upper {c : Char} (h : isUpperAscii c = true) :
    stripSet.contains c = false := by
  by_contra hc
  rw [Bool.not_eq_false] at hc
  have hmem : c ∈ stripSet := by
    have := List.contains_iff_exists_mem_beq.mp hc
    obtain ⟨x, hx, hbeq⟩ := this
    rw [beq_iff_eq] at hbeq
    rwa [hbeq]
  unfold stripSet at hmem
  rcases List.mem_cons.mp hmem with rfl | hmem
  · exact absurd h (by decide)
  rcases List.mem_cons.mp hmem with rfl | hmem
  · exact absurd h (by decide)
  rcases List.mem_cons.mp hmem with rfl | hmem
  · exact absurd h (by decide)
  · cases hmem

theorem findallGeoF_shape :
    ∀ fuel l m, m ∈ findallGeoF fuel l →
      ∃ c run, m = c :: run ∧ isUpperAscii c = true ∧ run ≠ [] ∧
        run.all isGeoChar = true := by
  intro fuel
  induction fuel with
  | zero =>
    intro l m hm
    cases l with
    | nil => cases hm
    | cons a rest => cases hm
  | succ fuel ih =>
    intro l m hm
    cases l with
    | nil => cases hm
    | cons a rest =>
      simp only [findallGeoF] at hm
      split at hm
      · rename_i l' c rest' heq
        split at hm
        · rename_i hcond
          rw [Bool.and_eq_true] at hcond
          obtain ⟨h1, h2⟩ := hcond
          rcases List.mem_cons.mp hm with rfl | hmem
          · refine ⟨c, rest'.takeWhile isGeoChar, rfl, h1, ?_, ?_⟩
            · intro hempty
              rw [hempty] at h2
              exact absurd h2 (by decide)
            · rw [List.all_eq_true]
              intro x hx
              exact List.mem_takeWhile_imp hx
          · exact ih _ _ hmem
        · exact ih _ _ hm
      · exact ih _ _ hm
      · cases hm

theorem dropWhile_head_false {α : Type} (p : α → Bool) :
    ∀ (l : List α) (x : α) (xs : List α), l.dropWhile p = x :: xs → p x = false := by
  intro l
  induction l with
  | nil => intro x xs h; cases h
  | cons a rest ih =>
    intro x xs h
    rw [List.dropWhile_cons] at h
    by_cases ha : p a = true
    · rw [if_pos ha] at h
      exact ih x xs h
    · rw [if_neg ha] at h
      cases h
      exact Bool.eq_false_iff.mpr ha

theorem stripped_wellFormed {c : Char} {run : List Char}
    (hc : isUpperAscii c = true) (hall : run.all isGeoChar = true) :
    wellFormedGeo (String.mk (pyStripChars stripSet (c :: run))) = true := by
  have hpc : stripSet.contains c = false := not_strip_of_upper hc
  have hnm : c ∉ stripSet := by
    intro hmem
    have h2 : stripSet.contains c = true := by simpa using hmem
    rw [hpc] at h2
    exact Bool.noConfusion h2
  unfold pyStripChars
  rw [show (c :: run).dropWhile (stripSet.contains ·) = c :: run by
    rw [List.dropWhile_cons, if_neg (by simpa using hnm)]]
  set r := (c :: run).reverse.dropWhile (stripSet.contains ·) with hr
  have hrsuffix : r <:+ (c :: run).reverse := List.dropWhile_suffix _
  have hrne : r ≠ [] := by
    intro hnil
    have hforall : ∀ x ∈ (c :: run).reverse, (stripSet.contains x) = true :=
      List.dropWhile_eq_nil_iff.mp (hr ▸ hnil)
    have hcc := hforall c (List.mem_reverse.mpr (List.mem_cons_self _ _))
    rw [hpc] at hcc
    exact Bool.noConfusion hcc
  have hprefix : r.reverse <+: c :: run := by
    have := List.reverse_prefix.mpr hrsuffix
    rwa [List.reverse_reverse] at this
  obtain ⟨x, xs, hx⟩ : ∃ x xs, r = x :: xs := by
    cases hrr : r with
    | nil => exact absurd hrr hrne
    | cons x xs => exact ⟨x, xs, rfl⟩
  have hne2 : r.reverse ≠ [] := by
    intro h
    apply hrne
    have := congrArg List.reverse h
    rwa [List.reverse_reverse] at this
  have hhead : r.reverse.headD 'a' = c := by
    obtain ⟨t, ht⟩ := hprefix
    cases hrev : r.reverse with
    | nil => exact absurd hrev hne2
    | cons y ys =>
      rw [hrev, List.cons_append] at ht
      cases ht
      rfl
  have hsub : ∀ a ∈ r.reverse, isGeoChar a = true := by
    intro a ha
    have hmem : a ∈ c :: run := hprefix.sublist.subset ha
    rcases List.mem_cons.mp hmem with rfl | hmem
    · exact isGeoChar_of_upper hc
    · exact List.all_eq_true.mp hall a hmem
  have hlast : r.reverse.getLastD 'a' = x := by
    rw [List.getLastD_eq_getLast?, List.getLast?_reverse, hx]
    rfl
  have hxfalse : stripSet.contains x = false := by
    apply dropWhile_head_false (fun ch => stripSet.contains ch) ((c :: run).reverse) x xs
    rw [← hr]
    exact hx
  show wellFormedGeo (String.mk r.reverse) = true
  unfold wellFormedGeo
  show (!r.reverse.isEmpty && isUpperAscii (r.reverse.headD 'a') &&
    r.reverse.all isGeoChar && !stripSet.contains (r.reverse.getLastD 'a')) = true
  rw [hhead, hlast, hxfalse, hc]
  rw [List.all_eq_true.mpr hsub]
  rw [show r.reverse.isEmpty = false from by simp [List.isEmpty_iff, hne2]]
  rfl
/-- Claim C4, counterexample.  On the question of the claim the regex
`in ([A-Z][A-Za-z0-9_ -]+)` matches once, not twice: the greedy
character class includes lowercase letters and spaces, so the single
captured group runs across `and in Lakeview`; the extraction is
`["Springfield and in Lakeview"]`, not `["Springfield and",
"Lakeview"]`. -/
theorem claim_C4_counterexample :
    extract_geo_filters "Show rankings in Springfield and in Lakeview" =
      ["Springfield and in Lakeview"] ∧
    (["Springfield and in Lakeview"] : List String) ≠ ["Springfield and", "Lakeview"] :=
  ⟨by decide, by decide⟩

/-- Claim C4 (amended): the question yields the single filter term
`"Springfield and in Lakeview"` (the greedy run after the first
`in ` spans the second `in`); in general every extracted term is a
leftmost non-overlapping greedy match of `in ` followed by a run of
letters, digits, spaces, hyphens and underscores beginning with a
capital letter, trimmed of trailing spaces, commas and periods — so
each term is non-empty, starts with a capital, consists of class
characters and does not end in a stripped character. -/
theorem claim_C4_geo_extraction :
    extract_geo_filters "Show rankings in Springfield and in Lakeview" =
      ["Springfield and in Lakeview"] ∧
    ∀ question : String, (extract_geo_filters question).all wellFormedGeo = true := by
  refine ⟨by decide, ?_⟩
  intro question
  unfold extract_geo_filters
  rw [List.all_eq_true]
  intro s hs
  rw [List.mem_map] at hs
  obtain ⟨m, hm, rfl⟩ := hs
  obtain ⟨c, run, rfl, hc, _, hall⟩ :=
    findallGeoF_shape question.data.length question.data m hm
  exact stripped_wellFormed hc hall

/-- Whether no line of a string contains any of the three section
headers the schema summarizer recognizes. -/
def noSchemaHeaders (s : String) : Bool :=
  (splitOnChar '\n' s.data).all (fun line =>
    !(subStr hdrNodeProps line || subStr hdrRelProps line || subStr hdrRels line))

theorem scanLine_eq_self {st : ScanState} {line : List Char}
    (hline : (!(subStr hdrNodeProps line || subStr hdrRelProps line ||
      subStr hdrRels line)) = true)
    (h1 : st.in_node_props = false) (h2 : st.in_rel_props = false)
    (h3 : st.in_rels = false) :
    scanLine st line = st := by
  simp only [Bool.not_eq_true', Bool.or_eq_false_iff] at hline
  unfold scanLine
  rw [if_neg (by simp [hline.1.1]), if_neg (by simp [hline.1.2]),
    if_neg (by simp [hline.2]), if_neg (by simp [h1]), if_neg (by simp [h2]),
    if_neg (by simp [h3])]

theorem foldl_scanLine_initScan {lines : List (List Char)}
    (h : lines.all (fun line => !(subStr hdrNodeProps line || subStr hdrRelProps line ||
      subStr hdrRels line)) = true) :
    lines.foldl scanLine initScan = initScan := by
  induction lines with
  | nil => rfl
  | cons line rest ih =>
    rw [List.all_cons, Bool.and_eq_true] at h
    rw [List.foldl_cons, scanLine_eq_self h.1 rfl rfl rfl, ih h.2]

/-- Claim C8: the schema summarizer returns its input unchanged when
the input is empty or the not-available sentinel; it returns the
summary-not-available sentinel whenever no line of the (non-sentinel)
input contains a recognized section header; hence re-summarizing one
of its own digests that contains no recognized header lines yields the
sentinel rather than corrupted text. -/
theorem claim_C8_schema_summarizer :
    (∀ s, s = "" ∨ s = schemaNotAvailable →
      summarize_schema_for_tool_selection s = s) ∧
    (∀ s, s ≠ "" → s ≠ schemaNotAvailable → noSchemaHeaders s = true →
      summarize_schema_for_tool_selection s = schemaSummaryNotAvailable) ∧
    (∀ s, noSchemaHeaders (summarize_schema_for_tool_selection s) = true →
      summarize_schema_for_tool_selection s ≠ "" →
      summarize_schema_for_tool_selection s ≠ schemaNotAvailable →
      summarize_schema_for_tool_selection (summarize_schema_for_tool_selection s) =
        schemaSummaryNotAvailable) := by
  have hpart2 : ∀ s, s ≠ "" → s ≠ schemaNotAvailable → noSchemaHeaders s = true →
      summarize_schema_for_tool_selection s = schemaSummaryNotAvailable := by
    intro s hne hna hnh
    unfold noSchemaHeaders at hnh
    unfold summarize_schema_for_tool_selection
    rw [if_neg (by rintro (h | h) <;> [exact hne h; exact hna h])]
    simp only [foldl_scanLine_initScan hnh]
    rfl
  refine ⟨?_, hpart2, ?_⟩
  · intro s h
    unfold summarize_schema_for_tool_selection
    rw [if_pos h]
  · intro s hnh hne hna
    exact hpart2 _ hne hna hnh

theorem claim_C8_schema_summarizer_witness :
    summarize_schema_for_tool_selection "" = "" ∧
    summarize_schema_for_tool_selection "Node labels: A" = schemaSummaryNotAvailable ∧
    summarize_schema_for_tool_selection
        (summarize_schema_for_tool_selection "Node labels: A") =
      schemaSummaryNotAvailable :=
  ⟨claim_C8_schema_summarizer.1 "" (Or.inl rfl),
   claim_C8_schema_summarizer.2.1 "Node labels: A" (by decide) (by decide) (by decide),
   claim_C8_schema_summarizer.2.2 "Node labels: A" (by decide) (by decide) (by decide)⟩

/-- Claim C2: with the LLM selector enabled and no caller-supplied
tool name, a null selection (the selector returning `None`, or a
selection whose `tool` is null) makes `run` fail with the
selection-exhausted error carrying the LLM-specific message — for
every registry and every backend, so the keyword matcher is never
consulted; the keyword matcher is consulted only with the selector
disabled, and its null result fails the call with the keyword
message. -/
theorem claim_C2_semantic_null_terminal :
    (∀ agent selection callTool question inputs,
      agent.use_llm_selector = true →
      (selection = none ∨ ∃ s, selection = some s ∧ s.tool = none) →
      run agent selection callTool question none inputs = .error msgLLMFail) ∧
    (∀ agent selection callTool question inputs,
      agent.use_llm_selector = false →
      infer_tool (agent.tool_configs.map Prod.snd) question = none →
      run agent selection callTool question none inputs = .error msgKwFail) := by
  constructor
  · intro agent selection callTool question inputs hllm hsel
    unfold run
    rcases hsel with rfl | ⟨s, rfl, htool⟩
    · simp [hllm]
    · simp [hllm, htool]
  · intro agent selection callTool question inputs hllm hinfer
    unfold run
    simp [hllm, hinfer]

theorem claim_C2_witness :
    run ⟨defaultRegistry, "name", true⟩ none (fun _ _ => .ok []) "Show influencers"
      none none = .error msgLLMFail ∧
    run ⟨defaultRegistry, "name", true⟩ (some ⟨none, [], .vNull⟩) (fun _ _ => .ok [])
      "Show influencers" none none = .error msgLLMFail ∧
    run ⟨defaultRegistry, "name", false⟩ none (fun _ _ => .ok []) "qqq" none none =
      .error msgKwFail :=
  ⟨claim_C2_semantic_null_terminal.1 _ none _ _ none rfl (Or.inl rfl),
   claim_C2_semantic_null_terminal.1 _ (some ⟨none, [], .vNull⟩) _ _ none rfl
     (Or.inr ⟨_, rfl, rfl⟩),
   claim_C2_semantic_null_terminal.2 _ none _ _ none rfl (by decide)⟩

/-- Claim C3: when the backend raises on `call_tool` for the resolved
tool and its prepared arguments, `run` fails with an error whose
message contains the tool name and the original exception message; the
call result is exactly that error — no retry is modelled and no
`GraphAnalyticsResult` is produced. -/
theorem claim_C3_execution_wrapped :
    ∀ agent selection callTool question tool_name config inputs exc,
      dlookup agent.tool_configs tool_name = some config →
      callTool tool_name (prepare_inputs agent.default_identifier_property config question
        (combine_inputs [] inputs)) = .error exc →
      run agent selection callTool question (some tool_name) inputs =
        .error (msgToolCallFailed tool_name exc) ∧
      tool_name.data <:+: (msgToolCallFailed tool_name exc).data ∧
      exc.data <:+: (msgToolCallFailed tool_name exc).data := by
  intro agent selection callTool question tool_name config inputs exc hcfg hexc
  refine ⟨?_, ?_, ?_⟩
  · unfold run run_with_tool
    simp only [hcfg, hexc]
  · show tool_name.data <:+:
      ("Tool call failed for " ++ squote ++ tool_name ++ squote ++ ": " ++ exc).data
    simp only [String.data_append]
    exact ⟨("Tool call failed for " ++ squote).data, (squote ++ ": " ++ exc).data, by
      simp [String.data_append, List.append_assoc]⟩
  · show exc.data <:+:
      ("Tool call failed for " ++ squote ++ tool_name ++ squote ++ ": " ++ exc).data
    simp only [String.data_append]
    exact ⟨("Tool call failed for " ++ squote ++ tool_name ++ squote ++ ": ").data, [], by
      simp [String.data_append, List.append_assoc]⟩

theorem subStr_correct (n h : List Char) : subStr n h = true ↔ n <:+: h := by
  induction h with
  | nil =>
    show n.isEmpty = true ↔ _
    rw [List.isEmpty_iff, List.infix_nil]
  | cons c rest ih =>
    show (n.isPrefixOf (c :: rest) || subStr n rest) = true ↔ _
    rw [Bool.or_eq_true, List.isPrefixOf_iff_prefix, ih, List.infix_cons_iff]

theorem mem_splitWsF_part :
    ∀ fuel l w, l.length ≤ fuel → w ∈ splitWsF fuel l → w <:+: l := by
  intro fuel
  induction fuel with
  | zero =>
    intro l w hl hw
    cases l with
    | nil => cases hw
    | cons c rest => cases hw
  | succ fuel ih =>
    intro l w hl hw
    cases l with
    | nil => cases hw
    | cons c rest =>
      by_cases hc : isPyWs c = true
      · rw [show splitWsF (fuel + 1) (c :: rest) = splitWsF fuel rest by
          simp [splitWsF, hc]] at hw
        have := ih rest w (by simp at hl; omega) hw
        exact this.trans (List.infix_cons (List.infix_refl rest))
      · rw [show splitWsF (fuel + 1) (c :: rest) =
          (c :: rest.takeWhile (fun d => !isPyWs d)) ::
            splitWsF fuel (rest.dropWhile (fun d => !isPyWs d)) by
          simp [splitWsF, hc]] at hw
        rcases List.mem_cons.mp hw with rfl | hmem
        · obtain ⟨t, ht⟩ := List.takeWhile_prefix (l := rest) (fun d => !isPyWs d)
          exact (show (c :: rest.takeWhile (fun d => !isPyWs d)) <+: c :: rest from
            ⟨t, by rw [List.cons_append, ht]⟩).isInfix
        · have hlen : (rest.dropWhile (fun d => !isPyWs d)).length ≤ fuel := by
            have := (List.dropWhile_sublist (l := rest) (fun d => !isPyWs d)).length_le
            simp at hl
            omega
          have := ih _ w hlen hmem
          exact this.trans
            ((List.dropWhile_suffix _).isInfix.trans (List.infix_cons (List.infix_refl rest)))

theorem mem_splitWs_part (l : List Char) (w : List Char) (hw : w ∈ splitWs l) :
    w <:+: l :=
  mem_splitWsF_part l.length l w (Nat.le_refl _) hw

theorem kwMatch_eq_subStr (normalized kw : List Char) :
    kwMatch normalized (splitWs normalized) kw = subStr kw normalized := by
  unfold kwMatch
  cases hs : subStr kw normalized with
  | true => rfl
  | false =>
    rw [Bool.false_or]
    rw [List.any_eq_false]
    intro w hw
    intro hcontra
    rw [Bool.or_eq_true] at hcontra
    have hinf : kw <:+: w := by
      rcases hcontra with h | h
      · exact (subStr_correct kw w).mp h
      · exact (List.isPrefixOf_iff_prefix.mp h).isInfix
    have : subStr kw normalized = true :=
      (subStr_correct kw normalized).mpr (hinf.trans (mem_splitWs_part _ _ hw))
    rw [hs] at this
    exact Bool.noConfusion this

/-- Keyword match by the single whole-question substring rule. -/
def hasKwMatchSimple (question : String) (config : ToolConfig) : Bool :=
  config.keywords.any (fun kw => subStr (pyLower kw.data) (pyLower question.data))

/-- The keyword matcher as the specification reads once the token
rules are dropped: first tool in registry order having a keyword that
is a substring of the lower-cased question. -/
def infer_tool_substring_only (configs : List ToolConfig) (question : String) :
    Option String :=
  configs.findSome? (fun config =>
    if hasKwMatchSimple question config then some config.name else none)

/-- Claim C9: the three matching rules of `_infer_tool` (whole-question
substring, token substring, token prefix) are extensionally equivalent
to the whole-question substring rule alone — the token rules can only
fire when the keyword already occurs as a substring of the lower-cased
question (every token is an infix of the question) — so the matcher
always returns the first tool in insertion order having a keyword that
is a substring of the lower-cased question. -/
theorem claim_C9_matcher_refinement :
    ∀ configs question,
      infer_tool configs question = infer_tool_substring_only configs question := by
  intro configs question
  unfold infer_tool infer_tool_substring_only
  have hfun : ∀ config : ToolConfig,
      hasKwMatch question config = hasKwMatchSimple question config := by
    intro config
    unfold hasKwMatch hasKwMatchSimple
    have hkw : (fun kw : String =>
        kwMatch (pyLower question.data) (splitWs (pyLower question.data)) (pyLower kw.data)) =
        (fun kw : String => subStr (pyLower kw.data) (pyLower question.data)) :=
      funext fun kw => kwMatch_eq_subStr _ _
    show config.keywords.any (fun kw =>
      kwMatch (pyLower question.data) (splitWs (pyLower question.data)) (pyLower kw.data)) =
      config.keywords.any (fun kw => subStr (pyLower kw.data) (pyLower question.data))
    rw [hkw]
  have : (fun config : ToolConfig =>
      if hasKwMatch question config then some config.name else none) =
      (fun config : ToolConfig =>
      if hasKwMatchSimple question config then some config.name else none) := by
    funext config
    rw [hfun]
  rw [this]

/-- Claim C6, counterexample.  The question `"rank the community"`
contains the keyword `"community"`, registered to exactly one tool of
the default registry (`leiden`), yet `_infer_tool` returns
`article_rank` — the first tool in insertion order whose keyword
(`"rank"`) also matches — not `leiden` as the claim requires. -/
theorem claim_C6_counterexample :
    infer_tool build_default_configs "rank the community" = some "article_rank" ∧
    subStr (pyLower "community".data) (pyLower "rank the community".data) = true ∧
    (build_default_configs.filter (fun c => c.keywords.contains "community")).map
      (fun c => c.name) = ["leiden"] ∧
    some "article_rank" ≠ some "leiden" := by
  refine ⟨by decide, by decide, by decide, by decide⟩

/-- Claim C6 (amended): when the set of registry tools with a matching
keyword is exactly one tool, the keyword matcher returns that tool's
name; and it returns null exactly when no tool's keyword matches under
the substring and token rules.  (As stated, the claim fails when a
keyword of another tool also matches the question; the matcher then
follows registry insertion order.) -/
theorem claim_C6_keyword_matcher :
    (∀ configs question (config : ToolConfig), config ∈ configs →
      hasKwMatch question config = true →
      (∀ c ∈ configs, hasKwMatch question c = true → c = config) →
      infer_tool configs question = some config.name) ∧
    (∀ configs question,
      infer_tool configs question = none ↔
        ∀ c ∈ configs, hasKwMatch question c = false) := by
  constructor
  · intro configs question config hmem hmatch huniq
    induction configs with
    | nil => cases hmem
    | cons a rest ih =>
      by_cases ha : hasKwMatch question a = true
      · have : a = config := huniq a (List.mem_cons_self _ _) ha
        subst this
        unfold infer_tool
        rw [List.findSome?_cons]
        simp [ha]
      · have hne : config ≠ a := fun h => ha (h ▸ hmatch)
        have hmem' : config ∈ rest := by
          rcases List.mem_cons.mp hmem with h | h
          · exact absurd h hne
          · exact h
        have huniq' : ∀ c ∈ rest, hasKwMatch question c = true → c = config :=
          fun c hc hm => huniq c (List.mem_cons_of_mem _ hc) hm
        have := ih hmem' huniq'
        unfold infer_tool at this ⊢
        rw [List.findSome?_cons]
        simp [ha]
        exact this
  · intro configs question
    induction configs with
    | nil =>
      constructor
      · intro _ c hc; cases hc
      · intro _; rfl
    | cons a rest ih =>
      unfold infer_tool at ih ⊢
      rw [List.findSome?_cons]
      by_cases ha : hasKwMatch question a = true
      · simp [ha]
      · simp only [ha, Bool.false_eq_true, if_false]
        constructor
        · intro h c hc
          rcases List.mem_cons.mp hc with rfl | hmem
          · exact Bool.eq_false_iff.mpr ha
          · exact (ih.mp h) c hmem
        · intro h
          exact ih.mpr (fun c hc => h c (List.mem_cons_of_mem _ hc))

/-- A single-tool registry list for the matcher witness. -/
def soloLeidenCfg : ToolConfig :=
  { name := "leiden", description := "Community detection using the Leiden algorithm.",
    keywords := ["community", "cluster", "group", "modularity"] }

theorem claim_C6_keyword_matcher_witness :
    infer_tool [soloLeidenCfg] "explain modularity" = some "leiden" ∧
    infer_tool [soloLeidenCfg] "qqq" = none :=
  ⟨claim_C6_keyword_matcher.1 [soloLeidenCfg] "explain modularity" soloLeidenCfg
      (List.mem_cons_self _ _) (by decide)
      (fun c hc _ => by
        rcases List.mem_cons.mp hc with rfl | h
        · rfl
        · cases h),
   (claim_C6_keyword_matcher.2 [soloLeidenCfg] "qqq").mpr
      (fun c hc => by
        rcases List.mem_cons.mp hc with rfl | h
        · decide
        · cases h)⟩

theorem claim_C3_execution_wrapped_witness :
    run ⟨defaultRegistry, "name", true⟩ none (fun _ _ => .error "boom") "q"
      (some "bridges") none = .error (msgToolCallFailed "bridges" "boom") ∧
    "bridges".data <:+: (msgToolCallFailed "bridges" "boom").data ∧
    "boom".data <:+: (msgToolCallFailed "bridges" "boom").data :=
  claim_C3_execution_wrapped ⟨defaultRegistry, "name", true⟩ none
    (fun _ _ => .error "boom") "q" "bridges"
    { name := "bridges",
      description := "Detects bridge edges connecting graph components.",
      keywords := ["bridge", "bottleneck", "critical connection", "cut edge"],
      defaults := [],
      summary_builder := some summarize_bridges }
    none "boom" rfl rfl


theorem prepare_inputs_ref_frame (h : PyHeap) (idProp : String) (dRef : Nat)
    (q : String) (oRef : Option Nat) (i : Nat) (hi : i < h.next) :
    ((prepare_inputs_ref h idProp dRef q oRef).1).mem i = h.mem i := by
  have hne : ¬ i = h.next := Nat.ne_of_lt hi
  cases oRef with
  | none =>
    simp only [prepare_inputs_ref, halloc, hread, hwrite]
    split_ifs <;> simp [hne]
  | some r =>
    simp only [prepare_inputs_ref, halloc, hread, hwrite]
    split_ifs <;> simp [hne]


theorem run_merge_ref_frame (h : PyHeap) (idProp : String) (dRef sRef : Nat)
    (iRefO : Option Nat) (q : String) (i : Nat) (hi : i < h.next) :
    ((run_merge_ref h idProp dRef sRef iRefO q).1).mem i = h.mem i := by
  have hne : ¬ i = h.next := Nat.ne_of_lt hi
  cases iRefO with
  | none =>
    simp only [run_merge_ref, halloc, hread, hwrite]
    rw [prepare_inputs_ref_frame _ _ _ _ _ i (by simp; omega)]
    simp [hne]
  | some r =>
    simp only [run_merge_ref, halloc, hread, hwrite]
    split_ifs <;>
      (rw [prepare_inputs_ref_frame _ _ _ _ _ i (by simp; omega)]; simp [hne])

theorem prepare_inputs_ref_value (h : PyHeap) (idProp : String) (dRef : Nat)
    (q : String) (oRef : Nat) (hd : dRef < h.next) (ho : oRef < h.next) :
    ((prepare_inputs_ref h idProp dRef q (some oRef)).1).mem
        (prepare_inputs_ref h idProp dRef q (some oRef)).2 =
      prepare_inputs idProp
        { name := "", description := "", keywords := [], defaults := h.mem dRef,
          summary_builder := none } q (h.mem oRef) := by
  have hdne : ¬ dRef = h.next := Nat.ne_of_lt hd
  have hone : ¬ oRef = h.next := Nat.ne_of_lt ho
  simp only [prepare_inputs_ref, halloc, hread, hwrite, prepare_inputs, prepare_base]
  split_ifs <;> simp_all [hone, hdne]


theorem run_merge_ref_value (h : PyHeap) (idProp : String) (dRef sRef iRef : Nat)
    (q : String) (hd : dRef < h.next) (hs : sRef < h.next) (hi : iRef < h.next) :
    hread (run_merge_ref h idProp dRef sRef (some iRef) q).1
        (run_merge_ref h idProp dRef sRef (some iRef) q).2 =
      prepare_inputs idProp
        { name := "", description := "", keywords := [], defaults := hread h dRef,
          summary_builder := none } q
        (combine_inputs (hread h sRef) (some (hread h iRef))) := by
  have hdne : ¬ dRef = h.next := Nat.ne_of_lt hd
  have hsne : ¬ sRef = h.next := Nat.ne_of_lt hs
  have hine : ¬ iRef = h.next := Nat.ne_of_lt hi
  simp only [run_merge_ref, halloc, hread, hwrite, combine_inputs]
  split_ifs <;>
    rw [prepare_inputs_ref_value _ _ _ _ _ (Nat.lt_trans hd (Nat.lt_succ_self _))
      (Nat.lt_succ_self _)] <;>
    simp_all [hread]

/-- Claim C10: the merging steps of `run` (lines 126-130) and
`_prepare_inputs` (lines 435-449) never mutate their inputs.  Replayed
on an explicit heap of dict objects — where `dict(x)` allocates a copy
and `update`/`setdefault`/subscript assignment mutate in place — every
write of the pipeline targets one of the two freshly allocated copies,
so after the merge the tool defaults object, the selector-suggested
inputs object and the caller inputs object hold exactly their original
entries (hence repeated calls start from the same defaults), and the
prepared result read from the heap equals the value-level
`prepare_inputs` applied to the original dict values.  No other
statement of `run` touches these objects. -/
theorem claim_C10_run_no_mutation :
    ∀ (h : PyHeap) (idProp question : String) (dRef sRef iRef : Nat),
      dRef < h.next → sRef < h.next → iRef < h.next →
      hread (run_merge_ref h idProp dRef sRef (some iRef) question).1 dRef =
        hread h dRef ∧
      hread (run_merge_ref h idProp dRef sRef (some iRef) question).1 sRef =
        hread h sRef ∧
      hread (run_merge_ref h idProp dRef sRef (some iRef) question).1 iRef =
        hread h iRef ∧
      hread (run_merge_ref h idProp dRef sRef (some iRef) question).1
          (run_merge_ref h idProp dRef sRef (some iRef) question).2 =
        prepare_inputs idProp
          { name := "", description := "", keywords := [], defaults := hread h dRef,
            summary_builder := none } question
          (combine_inputs (hread h sRef) (some (hread h iRef))) :=
  fun h idProp question dRef sRef iRef hd hs hi =>
    ⟨run_merge_ref_frame h idProp dRef sRef (some iRef) question dRef hd,
     run_merge_ref_frame h idProp dRef sRef (some iRef) question sRef hs,
     run_merge_ref_frame h idProp dRef sRef (some iRef) question iRef hi,
     run_merge_ref_value h idProp dRef sRef iRef question hd hs hi⟩

/-- A concrete three-object heap for the frame witness. -/
def c10Heap : PyHeap :=
  ⟨3, fun i => if i = 0 then [("a", .vInt 1)]
    else if i = 1 then [("s", .vInt 2)] else [("o", .vInt 3)]⟩

theorem claim_C10_run_no_mutation_witness :
    hread (run_merge_ref c10Heap "name" 0 1 (some 2) "rank in Dublin").1 0 =
      hread c10Heap 0 ∧
    hread (run_merge_ref c10Heap "name" 0 1 (some 2) "rank in Dublin").1 1 =
      hread c10Heap 1 ∧
    hread (run_merge_ref c10Heap "name" 0 1 (some 2) "rank in Dublin").1 2 =
      hread c10Heap 2 ∧
    hread (run_merge_ref c10Heap "name" 0 1 (some 2) "rank in Dublin").1
        (run_merge_ref c10Heap "name" 0 1 (some 2) "rank in Dublin").2 =
      prepare_inputs "name"
        { name := "", description := "", keywords := [], defaults := hread c10Heap 0,
          summary_builder := none } "rank in Dublin"
        (combine_inputs (hread c10Heap 1) (some (hread c10Heap 2))) :=
  claim_C10_run_no_mutation c10Heap "name" "rank in Dublin" 0 1 2
    (by decide) (by decide) (by decide)

end GraphRag
